import Mathlib

/-!
Shallow embedding of the unexport command (the revision with the -package,
-dryrun and -verbose flags) and verification of its specification claims.

Go maps used as sets are modelled as duplicate-free lists built with addNew,
pointer identity of objects is modelled by an id field, and token files are
modelled by their file names.
-/

set_option autoImplicit false

namespace Unexport

/-- Boolean membership test for lists, modelling Go map lookups such as
objsToUpdate[obj] and filesToUpdate[file]. -/
def memb {α : Type} [DecidableEq α] (x : α) (l : List α) : Bool :=
  l.any (fun y => decide (y = x))

/-- Insert an element into a list unless already present: one Go map-set
assignment m[x] = true. -/
def addNew {α : Type} [DecidableEq α] (a : List α) (x : α) : List α :=
  if memb x a then a else a ++ [x]

/-- Insert every element of a list: a loop of Go map-set assignments. -/
def addAll {α : Type} [DecidableEq α] (a l : List α) : List α :=
  l.foldl addNew a

/-- A types.Object: a uniquely resolved named entity.  The id field models
pointer identity within one load operation; pkg is obj.Pkg().Path() and
exported is obj.Exported(). -/
structure Object where
  id : Nat
  name : String
  pkg : String
  exported : Bool
deriving Repr, DecidableEq

/-- An ast.Ident occurrence: pos models its source position, file models
the token file (by name) that Fset.File(id.Pos()) resolves to, and name is
the identifier text (mutable in Go, rewritten functionally here). -/
structure Ident where
  pos : Nat
  file : String
  name : String
deriving Repr, DecidableEq

/-- A loader.PackageInfo: path, the Defs and Uses maps (Defs values may be
nil, hence Option), and the package files as token-file names. -/
structure PackageInfo where
  path : String
  defs : List (Ident × Option Object)
  uses : List (Ident × Object)
  files : List String
deriving Repr, DecidableEq

/-- A loader.Program: Imported holds the initially imported packages and
AllPackages the full transitive closure. -/
structure Program where
  imported : List PackageInfo
  allPackages : List PackageInfo
deriving Repr, DecidableEq

/-- The ground-truth Go workspace (GOPATH): every package with its sites,
and the import edges (importer path, imported path). -/
structure Workspace where
  pkgs : List PackageInfo
  imports : List (String × String)
deriving Repr, DecidableEq

/-- The config structure of the source: importPath, identifiers allowlist,
dryRun and verbose flags.  The build context is implicit in Workspace. -/
structure Config where
  importPath : String
  identifiers : List String
  dryRun : Bool
  verbose : Bool
deriving Repr, DecidableEq

/-- Result of a run at the process level: ok models a nil error from
runMain (exit 0), err a non-nil error printed by main before os.Exit(1),
and crash a Go runtime panic (nil pointer dereference). -/
inductive Outcome where
  | ok : Outcome
  | err : String → Outcome
  | crash : Outcome
deriving Repr, DecidableEq

/-- Process exit code for an outcome; a Go panic exits with code 2. -/
def exitCode : Outcome → Nat
  | Outcome.ok => 0
  | Outcome.err _ => 1
  | Outcome.crash => 2

/-- Translation of hasUse: true if the given obj occurs as a value of the
Uses map of info. -/
def hasUse (info : PackageInfo) (obj : Object) : Bool :=
  info.uses.any (fun p => decide (p.2 = obj))

/-- Translation of filterObjects: keeps the exported entries whose object
has no use inside the given package. -/
def filterObjects (info : PackageInfo) (exported : List (Ident × Object)) :
    List (Ident × Object) :=
  exported.filter (fun p => ! hasUse info p.2)

/-- Translation of exportedObjects: the Defs entries with a non-nil object
whose Exported flag is set. -/
def exportedObjects (info : PackageInfo) : List (Ident × Object) :=
  info.defs.filterMap (fun p =>
    match p.2 with
    | some o => if o.exported then some (p.1, o) else none
    | none => none)

/-- Translation of findExportedObjects: looks the target package up in
AllPackages.  In Go a missing target leaves pkgObj nil and the subsequent
field access info.Defs dereferences a nil pointer, so the none result
models a runtime panic. -/
def findExportedObjects (prog : Program) (path : String) :
    Option (List (Ident × Object)) :=
  match prog.allPackages.find? (fun info => decide (info.path = path)) with
  | some info => some (exportedObjects info)
  | none => none

/-- Packages that directly import p, read off the workspace import edges.
Models one level of the reverse import graph of importgraph.Build. -/
def directImporters (edges : List (String × String)) (p : String) :
    List String :=
  (edges.filter (fun e => decide (e.2 = p))).map (fun e => e.1)

/-- Packages directly imported by p. -/
def directImports (edges : List (String × String)) (p : String) :
    List String :=
  (edges.filter (fun e => decide (e.1 = p))).map (fun e => e.2)

/-- One round of graph expansion: add every neighbour of every element. -/
def closureStep (adj : String → List String) (acc : List String) :
    List String :=
  acc.foldl (fun a p => addAll a (adj p)) acc

/-- Fuelled reflexive-transitive closure. -/
def closureAux (adj : String → List String) : Nat → List String → List String
  | 0, acc => acc
  | n + 1, acc => closureAux adj n (closureStep adj acc)

/-- Modelled from the spec (§6 Import Graph Index contract): rev.Search(p)
is the reflexive transitive closure of p under reverse import edges.  The
fuel bound suffices because each round adds at least one node taken from
the edge list. -/
def revSearch (ws : Workspace) (p : String) : List String :=
  closureAux (directImporters ws.imports) (ws.imports.length + 1) [p]

/-- Forward import closure of a root set, used for Program.allPackages. -/
def fwdClosure (ws : Workspace) (roots : List String) : List String :=
  closureAux (directImports ws.imports) (ws.imports.length + 1) roots

/-- Modelled from the spec (§6 Source Toolkit contract) and the external
loader package: loadProgram imports the requested packages (with their
test variants folded into each PackageInfo) and fails when the requested
set is empty (the loader rejects a configuration with no initial
packages) or contains an unknown package. -/
def loadProgram (ws : Workspace) (pkgs : List String) :
    Except String Program :=
  if pkgs.isEmpty then Except.error "no initial packages were loaded"
  else if pkgs.all (fun p => ws.pkgs.any (fun info => decide (info.path = p))) then
    Except.ok
      { imported := ws.pkgs.filter (fun info => memb info.path pkgs)
        allPackages := ws.pkgs.filter (fun info => memb info.path (fwdClosure ws pkgs)) }
  else Except.error "could not load packages"

/-- Translation of the possiblePackages loop of runMain: the union over
all phase-one candidates of rev.Search of their defining package path. -/
def possiblePackagesOf (ws : Workspace) (objects : List (Ident × Object)) :
    List String :=
  objects.foldl (fun acc p => addAll acc (revSearch ws p.2.pkg)) []

/-- Translation of the objsToUpdate loop of runMain: the union over all
imported packages of the objects that filterObjects considers safe for
that single package. -/
def objsToUpdateOf (imported : List PackageInfo)
    (objects : List (Ident × Object)) : List Object :=
  imported.foldl
    (fun acc info => addAll acc ((filterObjects info objects).map (fun p => p.2)))
    []

/-- Whether a Defs entry is renamed by the rewrite loop: its object is
non-nil and in objsToUpdate. -/
def defTouched (q : List Object) (p : Ident × Option Object) : Bool :=
  match p.2 with
  | some o => memb o q
  | none => false

/-- Whether a Uses entry is renamed by the rewrite loop. -/
def useTouched (q : List Object) (p : Ident × Object) : Bool :=
  memb p.2 q

/-- Renamed occurrences contributed by one package: the nidents increments
of the rewrite loop restricted to this PackageInfo. -/
def siteCount (q : List Object) (info : PackageInfo) : Nat :=
  (info.defs.filter (defTouched q)).length +
    (info.uses.filter (useTouched q)).length

/-- The final nidents counter: renamed def and use sites over a package
list. -/
def totalSiteCount (q : List Object) (infos : List PackageInfo) : Nat :=
  (infos.map (siteCount q)).sum

/-- Files receiving at least one rename inside one package, in site
order. -/
def touchedFilesInfo (q : List Object) (info : PackageInfo) : List String :=
  (info.defs.filter (defTouched q)).map (fun p => p.1.file) ++
    (info.uses.filter (useTouched q)).map (fun p => p.1.file)

/-- Translation of the filesToUpdate map of the rewrite loop, as a
duplicate-free list. -/
def touchedFiles (q : List Object) (infos : List PackageInfo) : List String :=
  infos.foldl (fun acc info => addAll acc (touchedFilesInfo q info)) []

/-- Models strings.ToLower: lowercase every character of the name.  Go
lowercases per Unicode; identifiers in the claims are ASCII, where this
per-character map agrees with it. -/
def toLowerStr (s : String) : String := String.mk (s.data.map Char.toLower)

/-- The id.Name assignment of the rewrite loop on a Defs entry: planned
objects get the lowercase of their object name. -/
def renameDef (q : List Object) (p : Ident × Option Object) :
    Ident × Option Object :=
  match p.2 with
  | some o =>
      if memb o q then ({ p.1 with name := toLowerStr o.name }, p.2) else p
  | none => p

/-- The id.Name assignment of the rewrite loop on a Uses entry. -/
def renameUse (q : List Object) (p : Ident × Object) : Ident × Object :=
  if memb p.2 q then ({ p.1 with name := toLowerStr p.2.name }, p.2) else p

/-- A PackageInfo after the in-place rewrite of its identifiers. -/
def renameInfo (q : List Object) (info : PackageInfo) : PackageInfo :=
  { info with
    defs := info.defs.map (renameDef q)
    uses := info.uses.map (renameUse q) }

/-- The npkgs counter of the persistence loop: packages with at least one
file in filesToUpdate. -/
def npkgsOf (ftu : List String) (infos : List PackageInfo) : Nat :=
  (infos.filter (fun info => info.files.any (fun f => memb f ftu))).length

/-- Models rewriteFile: format.Node of the rewritten syntax tree followed
by ioutil.WriteFile; success of the write is given by the file-system
model wOk.  Note the source calls this unconditionally, the dryRun flag is
never consulted. -/
def rewriteFileOk (wOk : String → Bool) (f : String) : Bool := wOk f

/-- Translation of the persistence loop: for every imported package, in
order, attempt every one of its files that is in filesToUpdate; each event
records the file name and whether the write succeeded. -/
def persistAll (wOk : String → Bool) (ftu : List String)
    (infos : List PackageInfo) : List (String × Bool) :=
  infos.foldl
    (fun acc info =>
      acc ++ (info.files.filter (fun f => memb f ftu)).map
        (fun f => (f, rewriteFileOk wOk f)))
    []

/-- Observable result of one run. -/
structure RunResult where
  outcome : Outcome
  plan : List Object
  nidents : Nat
  touched : List String
  npkgs : Nat
  nerrs : Nat
  attempted : List String
  writes : List String
  summaryPrinted : Bool
  finalImported : List PackageInfo
deriving Repr, DecidableEq

/-- Result of a run that aborted before the analysis finished. -/
def earlyResult (o : Outcome) : RunResult :=
  { outcome := o, plan := [], nidents := 0, touched := [], npkgs := 0
    nerrs := 0, attempted := [], writes := [], summaryPrinted := false
    finalImported := [] }

/-- Lines 114 to 180 of runMain, given the phase-two program and the
re-derived exported objects: compute objsToUpdate, rewrite identifiers,
collect counts, persist every touched file, print the summary, and return
an aggregate error exactly when at least one write failed. -/
def finishRun (wOk : String → Bool) (g : Program)
    (objects : List (Ident × Object)) : RunResult :=
  let q := objsToUpdateOf g.imported objects
  let ftu := touchedFiles q g.imported
  let events := persistAll wOk ftu g.imported
  let numErrs := (events.filter (fun e => ! e.2)).length
  { outcome :=
      if numErrs > 0 then Outcome.err "failed to rewrite files" else Outcome.ok
    plan := q
    nidents := totalSiteCount q g.imported
    touched := ftu
    npkgs := npkgsOf ftu g.imported
    nerrs := numErrs
    attempted := events.map (fun e => e.1)
    writes := (events.filter (fun e => e.2)).map (fun e => e.1)
    summaryPrinted := true
    finalImported := g.imported.map (renameInfo q) }

/-- Lines 76 to 115 of runMain: scoped load of the target, reverse import
graph, affected package set, full load, and candidate re-derivation. -/
def analyzePhase (ws : Workspace) (path : String) :
    Except Outcome (Program × List (Ident × Object)) :=
  match loadProgram ws [path] with
  | Except.error e => Except.error (Outcome.err e)
  | Except.ok prog =>
    match findExportedObjects prog path with
    | none => Except.error Outcome.crash
    | some objs1 =>
      match loadProgram ws (possiblePackagesOf ws objs1) with
      | Except.error e => Except.error (Outcome.err e)
      | Except.ok g =>
        match findExportedObjects g path with
        | none => Except.error Outcome.crash
        | some objects => Except.ok (g, objects)

/-- Translation of runMain.  Note that conf.identifiers, conf.dryRun and
conf.verbose are fields of the config exactly as in the source, and that
the body reads none of them except through logging (verbose) which has no
observable effect here; in particular neither the allowlist nor the dry
run flag influences the computation, faithfully to the source. -/
def runMain (ws : Workspace) (wOk : String → Bool) (conf : Config) :
    RunResult :=
  if conf.importPath = "" then
    earlyResult (Outcome.err "import path of the package must be given")
  else
    match analyzePhase ws conf.importPath with
    | Except.error o => earlyResult o
    | Except.ok x => finishRun wOk x.1 x.2

/-- Whether an object has a use site in a loaded package other than its
defining package (spec-side notion for the safety claims). -/
def hasExternalUse (infos : List PackageInfo) (o : Object) : Bool :=
  infos.any (fun info =>
    info.uses.any (fun p => decide (p.2 = o) && decide (info.path ≠ o.pkg)))

/-- No file of i1 occurs among the files of i2. -/
def filesDisjoint (i1 i2 : PackageInfo) : Bool :=
  i1.files.all (fun f => ! memb f i2.files)

/-- Well-formedness of a workspace, all facts guaranteed by the Go build
and type systems: package paths are unique; a defined object belongs to
its defining package; a use of a foreign object implies an import edge;
every site lies in a file of its package; file lists are duplicate-free
and disjoint across packages. -/
def wfWorkspace (ws : Workspace) : Bool :=
  decide (ws.pkgs.map (fun i => i.path)).Nodup &&
  ws.pkgs.all (fun info =>
    info.defs.all (fun p =>
      match p.2 with
      | some o => decide (o.pkg = info.path)
      | none => true) &&
    info.uses.all (fun p =>
      decide (p.2.pkg = info.path) || memb (info.path, p.2.pkg) ws.imports) &&
    info.defs.all (fun p => memb p.1.file info.files) &&
    info.uses.all (fun p => memb p.1.file info.files) &&
    decide info.files.Nodup) &&
  ws.pkgs.all (fun i1 => ws.pkgs.all (fun i2 =>
    decide (i1 = i2) || filesDisjoint i1 i2))

/-! Concrete workspaces used to evaluate the code on the inputs the claims
are settled at. -/

/-- Exported object Foo defined in package p. -/
def fooObj : Object := { id := 0, name := "Foo", pkg := "p", exported := true }

/-- Exported object Bar defined in package p. -/
def barObj : Object := { id := 1, name := "Bar", pkg := "p", exported := true }

/-- Unexported object low defined in package p. -/
def lowObj : Object := { id := 2, name := "low", pkg := "p", exported := false }

/-- Definition site of Foo in p.go. -/
def idDefFoo : Ident := { pos := 1, file := "p.go", name := "Foo" }

/-- Use site of Foo inside package p. -/
def idUseFooP : Ident := { pos := 2, file := "p.go", name := "Foo" }

/-- Use site of Foo inside package b. -/
def idUseFooB : Ident := { pos := 10, file := "b.go", name := "Foo" }

/-- Definition site of low in p.go. -/
def idDefLow : Ident := { pos := 3, file := "p.go", name := "low" }

/-- Workspace 1: package p defines exported Foo with no internal use;
package b imports p and uses Foo once. -/
def pInfo1 : PackageInfo :=
  { path := "p", defs := [(idDefFoo, some fooObj)], uses := [], files := ["p.go"] }

/-- The importer package of workspace 1. -/
def bInfo1 : PackageInfo :=
  { path := "b", defs := [], uses := [(idUseFooB, fooObj)], files := ["b.go"] }

/-- Workspace with an external use of Foo. -/
def ws1 : Workspace := { pkgs := [pInfo1, bInfo1], imports := [("b", "p")] }

/-- Workspace 2: a single package p defining exported Foo and using it
once internally; no importers. -/
def pInfo2 : PackageInfo :=
  { path := "p", defs := [(idDefFoo, some fooObj)]
    uses := [(idUseFooP, fooObj)], files := ["p.go"] }

/-- Workspace with only an internal use of Foo. -/
def ws2 : Workspace := { pkgs := [pInfo2], imports := [] }

/-- Workspace 3: a single package p defining exported Foo, never used
anywhere. -/
def pInfo3 : PackageInfo :=
  { path := "p", defs := [(idDefFoo, some fooObj)], uses := [], files := ["p.go"] }

/-- Workspace with one unused exported identifier. -/
def ws3 : Workspace := { pkgs := [pInfo3], imports := [] }

/-- Workspace 5: a single package p with no exported identifiers. -/
def pInfo5 : PackageInfo :=
  { path := "p", defs := [(idDefLow, some lowObj)], uses := [], files := ["p.go"] }

/-- Workspace with no exported identifiers in the target. -/
def ws5 : Workspace := { pkgs := [pInfo5], imports := [] }

/-- Default configuration targeting package p: identifiers is the Go
strings.Split of the empty identifier flag, hence a single empty string. -/
def conf0 : Config :=
  { importPath := "p", identifiers := [""], dryRun := false, verbose := false }

/-- Configuration with the dryrun flag set. -/
def confDry : Config :=
  { importPath := "p", identifiers := [""], dryRun := true, verbose := false }

/-- Configuration with a non-empty identifier allowlist naming only Bar. -/
def confAllow : Config :=
  { importPath := "p", identifiers := ["Bar"], dryRun := false, verbose := false }

/-- File system in which every write succeeds. -/
def wAllOk : String → Bool := fun _ => true

/-- File system in which writing b.go fails and every other write
succeeds. -/
def wFailB : String → Bool := fun f => decide (f ≠ "b.go")

/-- Phase-one program of workspace 1 for target p. -/
def prog1 : Program := { imported := [pInfo1], allPackages := [pInfo1] }

/-- Phase-two program of workspace 1 for target p. -/
def glob1 : Program :=
  { imported := [pInfo1, bInfo1], allPackages := [pInfo1, bInfo1] }

/-- Phase-one and phase-two program of workspace 3. -/
def prog3 : Program := { imported := [pInfo3], allPackages := [pInfo3] }

/-- Phase-one program of workspace 5. -/
def prog5 : Program := { imported := [pInfo5], allPackages := [pInfo5] }

/-! Generic lemmas about the set helpers. -/

theorem memb_iff {α : Type} [DecidableEq α] (x : α) (l : List α) :
    memb x l = true ↔ x ∈ l := by
  simp [memb, List.any_eq_true]

theorem mem_addNew {α : Type} [DecidableEq α] (y : α) (a : List α) (x : α) :
    y ∈ addNew a x ↔ y ∈ a ∨ y = x := by
  unfold addNew
  by_cases h : memb x a = true
  · rw [if_pos h]
    constructor
    · exact Or.inl
    · rintro (hy | rfl)
      · exact hy
      · exact (memb_iff y a).1 h
  · rw [if_neg h]
    simp

theorem mem_addAll {α : Type} [DecidableEq α] (y : α) :
    ∀ (l a : List α), y ∈ addAll a l ↔ y ∈ a ∨ y ∈ l := by
  intro l
  induction l with
  | nil => intro a; simp [addAll]
  | cons x t ih =>
      intro a
      have : addAll a (x :: t) = addAll (addNew a x) t := rfl
      rw [this, ih, mem_addNew]
      simp [or_assoc]

theorem mem_foldl_addAll {α β : Type} [DecidableEq α]
    (g : β → List α) (y : α) :
    ∀ (l : List β) (a : List α),
      y ∈ l.foldl (fun acc b => addAll acc (g b)) a ↔
        y ∈ a ∨ ∃ b ∈ l, y ∈ g b := by
  intro l
  induction l with
  | nil => intro a; simp
  | cons x t ih =>
      intro a
      rw [List.foldl_cons, ih, mem_addAll]
      simp [or_assoc]

theorem mem_foldl_append {α β : Type} (g : β → List α) (y : α) :
    ∀ (l : List β) (a : List α),
      y ∈ l.foldl (fun acc b => acc ++ g b) a ↔
        y ∈ a ∨ ∃ b ∈ l, y ∈ g b := by
  intro l
  induction l with
  | nil => intro a; simp
  | cons x t ih =>
      intro a
      rw [List.foldl_cons, ih]
      simp [or_assoc]

theorem map_foldl_append {α β γ : Type} (f : α → γ) (g : β → List α) :
    ∀ (l : List β) (a : List α),
      (l.foldl (fun acc b => acc ++ g b) a).map f =
        l.foldl (fun acc b => acc ++ (g b).map f) (a.map f) := by
  intro l
  induction l with
  | nil => intro a; simp
  | cons x t ih =>
      intro a
      rw [List.foldl_cons, List.foldl_cons, ih, List.map_append]

theorem nodup_foldl_append {α β : Type} (g : β → List α) :
    ∀ (l : List β) (a : List α),
      a.Nodup → (∀ b ∈ l, (g b).Nodup) →
      (∀ b ∈ l, ∀ x ∈ g b, x ∉ a) →
      l.Pairwise (fun b c => ∀ x ∈ g b, x ∉ g c) →
      (l.foldl (fun acc b => acc ++ g b) a).Nodup := by
  intro l
  induction l with
  | nil => intro a ha _ _ _; simpa using ha
  | cons x t ih =>
      intro a ha hg hdisj hpw
      rw [List.foldl_cons]
      have hpw1 := List.pairwise_cons.1 hpw
      apply ih
      · exact List.Nodup.append ha (hg x (by simp))
          (fun z hz hz2 => hdisj x (by simp) z hz2 hz)
      · intro b hb; exact hg b (by simp [hb])
      · intro b hb z hz hmem
        rcases List.mem_append.1 hmem with h1 | h2
        · exact hdisj b (by simp [hb]) z hz h1
        · exact hpw1.1 b hb z h2 hz
      · exact hpw1.2

theorem filter_snd_length (w : String → Bool) :
    ∀ (l : List (String × Bool)), (∀ e ∈ l, e.2 = w e.1) →
      (l.filter (fun e => ! e.2)).length =
        ((l.map (fun e => e.1)).filter (fun f => ! w f)).length := by
  intro l
  induction l with
  | nil => intro _; rfl
  | cons e t ih =>
      intro h
      have he : e.2 = w e.1 := h e (by simp)
      have ht := ih (fun x hx => h x (by simp [hx]))
      by_cases hw : w e.1 = true
      · simp [List.filter_cons, he, hw, ht]
      · have hw2 : w e.1 = false := by
          cases hvw : w e.1
          · rfl
          · exact absurd hvw hw
        simp [List.filter_cons, he, hw2, ht]

theorem sum_filter_congr {α : Type} (f : α → Nat) (A B : α → Bool) :
    ∀ l : List α, (∀ x ∈ l, A x = true → B x = true) →
      (∀ x ∈ l, B x = true → A x = false → f x = 0) →
      ((l.filter B).map f).sum = ((l.filter A).map f).sum := by
  intro l
  induction l with
  | nil => intro _ _; rfl
  | cons x t ih =>
      intro hAB h0
      have ht := ih (fun z hz => hAB z (by simp [hz]))
        (fun z hz => h0 z (by simp [hz]))
      cases hA : A x with
      | true =>
          have hB : B x = true := hAB x (by simp) hA
          simp [List.filter_cons, hA, hB, ht]
      | false =>
          cases hB : B x with
          | true =>
              have hz : f x = 0 := h0 x (by simp) hB hA
              simp [List.filter_cons, hA, hB, ht, hz]
          | false => simp [List.filter_cons, hA, hB, ht]

/-! Characterizations of the translated source functions. -/

theorem hasUse_iff (info : PackageInfo) (o : Object) :
    hasUse info o = true ↔ ∃ p ∈ info.uses, p.2 = o := by
  simp [hasUse, List.any_eq_true]

theorem mem_filterObjects (info : PackageInfo)
    (objs : List (Ident × Object)) (p : Ident × Object) :
    p ∈ filterObjects info objs ↔ p ∈ objs ∧ hasUse info p.2 = false := by
  simp [filterObjects, List.mem_filter]

theorem mem_exportedObjects (info : PackageInfo) (id : Ident) (o : Object) :
    (id, o) ∈ exportedObjects info ↔
      (id, some o) ∈ info.defs ∧ o.exported = true := by
  simp only [exportedObjects, List.mem_filterMap]
  constructor
  · rintro ⟨p, hp, he⟩
    match p with
    | (pid, some po) =>
        simp only at he
        by_cases hex : po.exported = true
        · rw [if_pos hex] at he
          have h1 : pid = id ∧ po = o := by
            have := Option.some.inj he
            exact ⟨congrArg Prod.fst this, congrArg Prod.snd this⟩
          rcases h1 with ⟨rfl, rfl⟩
          exact ⟨hp, hex⟩
        · rw [if_neg hex] at he
          exact absurd he (by simp)
    | (pid, none) => exact absurd he (by simp)
  · rintro ⟨hp, hex⟩
    exact ⟨(id, some o), hp, by simp [hex]⟩

theorem findExportedObjects_some (prog : Program) (path : String)
    (objs : List (Ident × Object))
    (h : findExportedObjects prog path = some objs) :
    ∃ info, info ∈ prog.allPackages ∧ info.path = path ∧
      objs = exportedObjects info := by
  unfold findExportedObjects at h
  split at h
  next info hf =>
      refine ⟨info, List.mem_of_find?_eq_some hf, ?_, ?_⟩
      · have := List.find?_some hf
        simpa using this
      · exact (Option.some.inj h).symm
  next => exact absurd h (by simp)

theorem loadProgram_ok (ws : Workspace) (pkgs : List String) (prog : Program)
    (h : loadProgram ws pkgs = Except.ok prog) :
    pkgs ≠ [] ∧
      prog.imported = ws.pkgs.filter (fun i => memb i.path pkgs) ∧
      prog.allPackages =
        ws.pkgs.filter (fun i => memb i.path (fwdClosure ws pkgs)) := by
  unfold loadProgram at h
  split at h
  next hemp => exact absurd h (by simp)
  next hemp =>
      split at h
      next _ =>
          have hps : pkgs ≠ [] := by
            intro hnil
            exact hemp (by rw [hnil]; rfl)
          have := Except.ok.inj h
          exact ⟨hps, by rw [← this], by rw [← this]⟩
      next _ => exact absurd h (by simp)

/-! Lemmas about the graph closure. -/

theorem mem_closureStep_of_mem (adj : String → List String)
    (acc : List String) (x : String) (hx : x ∈ acc) :
    x ∈ closureStep adj acc := by
  unfold closureStep
  rw [mem_foldl_addAll]
  exact Or.inl hx

theorem mem_closureStep_of_adj (adj : String → List String)
    (acc : List String) (p x : String) (hp : p ∈ acc) (hx : x ∈ adj p) :
    x ∈ closureStep adj acc := by
  unfold closureStep
  rw [mem_foldl_addAll]
  exact Or.inr ⟨p, hp, hx⟩

theorem mem_closureAux_of_mem (adj : String → List String) :
    ∀ (n : Nat) (acc : List String) (x : String),
      x ∈ acc → x ∈ closureAux adj n acc := by
  intro n
  induction n with
  | zero => intro acc x hx; exact hx
  | succ m ih =>
      intro acc x hx
      exact ih (closureStep adj acc) x (mem_closureStep_of_mem adj acc x hx)

theorem self_mem_revSearch (ws : Workspace) (p : String) :
    p ∈ revSearch ws p := by
  unfold revSearch
  exact mem_closureAux_of_mem _ _ [p] p (by simp)

theorem direct_mem_revSearch (ws : Workspace) (p q : String)
    (h : (q, p) ∈ ws.imports) : q ∈ revSearch ws p := by
  unfold revSearch
  have hq : q ∈ directImporters ws.imports p := by
    simp only [directImporters, List.mem_map, List.mem_filter]
    exact ⟨(q, p), ⟨h, by simp⟩, rfl⟩
  show q ∈ closureAux (directImporters ws.imports) (ws.imports.length + 1) [p]
  have h1 : closureAux (directImporters ws.imports) (ws.imports.length + 1) [p] =
      closureAux (directImporters ws.imports) ws.imports.length
        (closureStep (directImporters ws.imports) [p]) := rfl
  rw [h1]
  exact mem_closureAux_of_mem _ _ _ q
    (mem_closureStep_of_adj _ [p] p q (by simp) hq)

theorem roots_sub_fwdClosure (ws : Workspace) (roots : List String)
    (x : String) (hx : x ∈ roots) : x ∈ fwdClosure ws roots := by
  unfold fwdClosure
  exact mem_closureAux_of_mem _ _ roots x hx

/-! Membership characterizations of the analysis sets. -/

theorem mem_possiblePackagesOf (ws : Workspace)
    (objs : List (Ident × Object)) (q : String) :
    q ∈ possiblePackagesOf ws objs ↔
      ∃ p ∈ objs, q ∈ revSearch ws p.2.pkg := by
  unfold possiblePackagesOf
  rw [mem_foldl_addAll]
  simp

theorem possiblePackagesOf_nil (ws : Workspace) :
    possiblePackagesOf ws [] = [] := rfl

theorem mem_objsToUpdateOf (imported : List PackageInfo)
    (objs : List (Ident × Object)) (o : Object) :
    o ∈ objsToUpdateOf imported objs ↔
      ∃ info ∈ imported, ∃ p ∈ filterObjects info objs, p.2 = o := by
  unfold objsToUpdateOf
  rw [mem_foldl_addAll]
  simp

theorem mem_touchedFiles (q : List Object) (infos : List PackageInfo)
    (f : String) :
    f ∈ touchedFiles q infos ↔
      ∃ info ∈ infos, f ∈ touchedFilesInfo q info := by
  unfold touchedFiles
  rw [mem_foldl_addAll]
  simp

theorem mem_persistAll (wOk : String → Bool) (ftu : List String)
    (infos : List PackageInfo) (e : String × Bool) :
    e ∈ persistAll wOk ftu infos ↔
      ∃ info ∈ infos, ∃ f ∈ info.files, memb f ftu = true ∧
        e = (f, rewriteFileOk wOk f) := by
  unfold persistAll
  rw [mem_foldl_append]
  simp only [List.mem_map, List.mem_filter, List.not_mem_nil, false_or]
  constructor
  · rintro ⟨info, hi, f, ⟨hf, hm⟩, rfl⟩
    exact ⟨info, hi, f, hf, hm, rfl⟩
  · rintro ⟨info, hi, f, hf, hm, rfl⟩
    exact ⟨info, hi, f, ⟨hf, hm⟩, rfl⟩

theorem persistAll_snd (wOk : String → Bool) (ftu : List String)
    (infos : List PackageInfo) (e : String × Bool)
    (he : e ∈ persistAll wOk ftu infos) : e.2 = wOk e.1 := by
  rcases (mem_persistAll wOk ftu infos e).1 he with ⟨_, _, f, _, _, rfl⟩
  rfl

/-! Extraction of the well-formedness facts. -/

theorem wf_path_nodup (ws : Workspace) (h : wfWorkspace ws = true) :
    (ws.pkgs.map (fun i => i.path)).Nodup := by
  simp only [wfWorkspace, Bool.and_eq_true, decide_eq_true_eq] at h
  exact h.1.1

theorem wf_pkg_fact (ws : Workspace) (h : wfWorkspace ws = true)
    (info : PackageInfo) (hi : info ∈ ws.pkgs) :
    (∀ p ∈ info.defs,
        (match p.2 with
          | some o => decide (o.pkg = info.path)
          | none => true) = true) ∧
      (∀ p ∈ info.uses,
        (decide (p.2.pkg = info.path) ||
          memb (info.path, p.2.pkg) ws.imports) = true) ∧
      (∀ p ∈ info.defs, memb p.1.file info.files = true) ∧
      (∀ p ∈ info.uses, memb p.1.file info.files = true) ∧
      info.files.Nodup := by
  simp only [wfWorkspace, Bool.and_eq_true, List.all_eq_true] at h
  have h5 := h.1.2 info hi
  refine ⟨h5.1.1.1.1, h5.1.1.1.2, h5.1.1.2, h5.1.2, ?_⟩
  simpa using h5.2

theorem wf_defs_pkg (ws : Workspace) (h : wfWorkspace ws = true)
    (info : PackageInfo) (hi : info ∈ ws.pkgs)
    (p : Ident × Option Object) (hp : p ∈ info.defs) (o : Object)
    (ho : p.2 = some o) : o.pkg = info.path := by
  have h2 := (wf_pkg_fact ws h info hi).1 p hp
  rw [ho] at h2
  simpa using h2

theorem wf_uses_edge (ws : Workspace) (h : wfWorkspace ws = true)
    (info : PackageInfo) (hi : info ∈ ws.pkgs)
    (p : Ident × Object) (hp : p ∈ info.uses)
    (hne : p.2.pkg ≠ info.path) : (info.path, p.2.pkg) ∈ ws.imports := by
  have h2 := (wf_pkg_fact ws h info hi).2.1 p hp
  rw [Bool.or_eq_true, decide_eq_true_eq] at h2
  rcases h2 with h2 | h2
  · exact absurd h2 hne
  · exact (memb_iff _ _).1 h2

theorem wf_defs_file (ws : Workspace) (h : wfWorkspace ws = true)
    (info : PackageInfo) (hi : info ∈ ws.pkgs)
    (p : Ident × Option Object) (hp : p ∈ info.defs) :
    p.1.file ∈ info.files := by
  exact (memb_iff _ _).1 ((wf_pkg_fact ws h info hi).2.2.1 p hp)

theorem wf_uses_file (ws : Workspace) (h : wfWorkspace ws = true)
    (info : PackageInfo) (hi : info ∈ ws.pkgs)
    (p : Ident × Object) (hp : p ∈ info.uses) :
    p.1.file ∈ info.files := by
  exact (memb_iff _ _).1 ((wf_pkg_fact ws h info hi).2.2.2.1 p hp)

theorem wf_files_nodup (ws : Workspace) (h : wfWorkspace ws = true)
    (info : PackageInfo) (hi : info ∈ ws.pkgs) : info.files.Nodup :=
  (wf_pkg_fact ws h info hi).2.2.2.2

theorem wf_files_disj (ws : Workspace) (h : wfWorkspace ws = true)
    (i1 : PackageInfo) (h1 : i1 ∈ ws.pkgs)
    (i2 : PackageInfo) (h2 : i2 ∈ ws.pkgs) (hne : i1 ≠ i2)
    (f : String) (hf : f ∈ i1.files) : f ∉ i2.files := by
  simp only [wfWorkspace, Bool.and_eq_true, List.all_eq_true] at h
  have h3 := h.2 i1 h1 i2 h2
  rw [Bool.or_eq_true, decide_eq_true_eq] at h3
  rcases h3 with h3 | h3
  · exact absurd h3 hne
  · simp only [filesDisjoint, List.all_eq_true] at h3
    have := h3 f hf
    intro hmem
    rw [Bool.not_eq_true'] at this
    exact absurd ((memb_iff f i2.files).2 hmem) (by simp [this])

/-! Reduction of runMain under successful loads. -/

theorem runMain_eq (ws : Workspace) (wOk : String → Bool) (conf : Config)
    (prog g : Program) (objs1 objects : List (Ident × Object))
    (h0 : conf.importPath ≠ "")
    (h1 : loadProgram ws [conf.importPath] = Except.ok prog)
    (h2 : findExportedObjects prog conf.importPath = some objs1)
    (h3 : loadProgram ws (possiblePackagesOf ws objs1) = Except.ok g)
    (h4 : findExportedObjects g conf.importPath = some objects) :
    runMain ws wOk conf = finishRun wOk g objects := by
  unfold runMain analyzePhase
  simp only [if_neg h0, h1, h2, h3, h4]

theorem finishRun_plan (wOk : String → Bool) (g : Program)
    (objects : List (Ident × Object)) :
    (finishRun wOk g objects).plan = objsToUpdateOf g.imported objects := rfl

theorem finishRun_nidents (wOk : String → Bool) (g : Program)
    (objects : List (Ident × Object)) :
    (finishRun wOk g objects).nidents =
      totalSiteCount (objsToUpdateOf g.imported objects) g.imported := rfl

theorem finishRun_touched (wOk : String → Bool) (g : Program)
    (objects : List (Ident × Object)) :
    (finishRun wOk g objects).touched =
      touchedFiles (objsToUpdateOf g.imported objects) g.imported := rfl

theorem finishRun_attempted (wOk : String → Bool) (g : Program)
    (objects : List (Ident × Object)) :
    (finishRun wOk g objects).attempted =
      (persistAll wOk
        (touchedFiles (objsToUpdateOf g.imported objects) g.imported)
        g.imported).map (fun e => e.1) := rfl

theorem finishRun_writes (wOk : String → Bool) (g : Program)
    (objects : List (Ident × Object)) :
    (finishRun wOk g objects).writes =
      ((persistAll wOk
        (touchedFiles (objsToUpdateOf g.imported objects) g.imported)
        g.imported).filter (fun e => e.2)).map (fun e => e.1) := rfl

theorem finishRun_nerrs (wOk : String → Bool) (g : Program)
    (objects : List (Ident × Object)) :
    (finishRun wOk g objects).nerrs =
      ((persistAll wOk
        (touchedFiles (objsToUpdateOf g.imported objects) g.imported)
        g.imported).filter (fun e => ! e.2)).length := rfl

theorem finishRun_outcome (wOk : String → Bool) (g : Program)
    (objects : List (Ident × Object)) :
    (finishRun wOk g objects).outcome =
      (if (finishRun wOk g objects).nerrs > 0 then
        Outcome.err "failed to rewrite files" else Outcome.ok) := rfl

theorem finishRun_summary (wOk : String → Bool) (g : Program)
    (objects : List (Ident × Object)) :
    (finishRun wOk g objects).summaryPrinted = true := rfl

theorem finishRun_final (wOk : String → Bool) (g : Program)
    (objects : List (Ident × Object)) :
    (finishRun wOk g objects).finalImported =
      g.imported.map (renameInfo (objsToUpdateOf g.imported objects)) := rfl

/-! Shared analysis lemmas. -/

theorem imported_sub_pkgs (ws : Workspace) (pkgs : List String)
    (g : Program) (h : loadProgram ws pkgs = Except.ok g)
    (info : PackageInfo) (hi : info ∈ g.imported) : info ∈ ws.pkgs := by
  have h2 := (loadProgram_ok ws pkgs g h).2.1
  rw [h2] at hi
  exact (List.mem_filter.1 hi).1

theorem allPackages_sub_pkgs (ws : Workspace) (pkgs : List String)
    (g : Program) (h : loadProgram ws pkgs = Except.ok g)
    (info : PackageInfo) (hi : info ∈ g.allPackages) : info ∈ ws.pkgs := by
  have h2 := (loadProgram_ok ws pkgs g h).2.2
  rw [h2] at hi
  exact (List.mem_filter.1 hi).1

theorem mem_imported_of_possible (ws : Workspace) (pkgs : List String)
    (g : Program) (h : loadProgram ws pkgs = Except.ok g)
    (info : PackageInfo) (hi : info ∈ ws.pkgs)
    (hp : info.path ∈ pkgs) : info ∈ g.imported := by
  have h2 := (loadProgram_ok ws pkgs g h).2.1
  rw [h2]
  exact List.mem_filter.2 ⟨hi, (memb_iff _ _).2 hp⟩

/-- Every object planned for rename is exported and defined in the
target package: it is drawn from the exported Defs entries of the target
PackageInfo of the full load. -/
theorem plan_exported_target (ws : Workspace) (path : String)
    (pkgs : List String) (g : Program) (objects : List (Ident × Object))
    (hwf : wfWorkspace ws = true)
    (h3 : loadProgram ws pkgs = Except.ok g)
    (h4 : findExportedObjects g path = some objects)
    (o : Object) (ho : o ∈ objsToUpdateOf g.imported objects) :
    o.exported = true ∧ o.pkg = path := by
  obtain ⟨info4, hi4, hpath4, hobj⟩ :=
    findExportedObjects_some g path objects h4
  have hsub : info4 ∈ ws.pkgs := allPackages_sub_pkgs ws pkgs g h3 info4 hi4
  obtain ⟨info, _, p, hp, rfl⟩ := (mem_objsToUpdateOf _ _ o).1 ho
  have hpo : p ∈ objects := ((mem_filterObjects info objects p).1 hp).1
  rw [hobj] at hpo
  obtain ⟨hdef, hexp⟩ := (mem_exportedObjects info4 p.1 p.2).1 hpo
  have hpkg := wf_defs_pkg ws hwf info4 hsub (p.1, some p.2) hdef p.2 rfl
  exact ⟨hexp, by rw [hpkg, hpath4]⟩

/-- If the full load succeeded then the phase-one candidate list was not
empty. -/
theorem objs1_ne_nil (ws : Workspace) (g : Program)
    (objs1 : List (Ident × Object))
    (h3 : loadProgram ws (possiblePackagesOf ws objs1) = Except.ok g) :
    objs1 ≠ [] := by
  intro hnil
  have h := (loadProgram_ok ws _ g h3).1
  rw [hnil, possiblePackagesOf_nil] at h
  exact h rfl

/-- Every reverse-search result of the target path lands in the affected
package set, because every phase-one candidate is defined in the target
package. -/
theorem revSearch_target_sub_possible (ws : Workspace) (path : String)
    (prog : Program) (objs1 : List (Ident × Object))
    (hwf : wfWorkspace ws = true)
    (h1 : loadProgram ws [path] = Except.ok prog)
    (h2 : findExportedObjects prog path = some objs1)
    (hne : objs1 ≠ [])
    (x : String) (hx : x ∈ revSearch ws path) :
    x ∈ possiblePackagesOf ws objs1 := by
  obtain ⟨info0, hi0, hpath0, hobj0⟩ :=
    findExportedObjects_some prog path objs1 h2
  have hsub : info0 ∈ ws.pkgs := allPackages_sub_pkgs ws [path] prog h1 info0 hi0
  obtain ⟨obj1, hobj1⟩ := List.exists_mem_of_ne_nil objs1 hne
  have hpo : obj1 ∈ exportedObjects info0 := by rw [← hobj0]; exact hobj1
  obtain ⟨hdef, _⟩ := (mem_exportedObjects info0 obj1.1 obj1.2).1 hpo
  have hpkg := wf_defs_pkg ws hwf info0 hsub (obj1.1, some obj1.2) hdef obj1.2 rfl
  rw [mem_possiblePackagesOf]
  refine ⟨obj1, hobj1, ?_⟩
  rw [hpkg, hpath0]
  exact hx

/-- Any workspace package whose path is the target is in the imported set
of the full load. -/
theorem target_info_imported (ws : Workspace) (path : String)
    (prog g : Program) (objs1 : List (Ident × Object))
    (hwf : wfWorkspace ws = true)
    (h1 : loadProgram ws [path] = Except.ok prog)
    (h2 : findExportedObjects prog path = some objs1)
    (h3 : loadProgram ws (possiblePackagesOf ws objs1) = Except.ok g)
    (info : PackageInfo) (hinfo : info ∈ ws.pkgs) (hp : info.path = path) :
    info ∈ g.imported := by
  apply mem_imported_of_possible ws _ g h3 info hinfo
  apply revSearch_target_sub_possible ws path prog objs1 hwf h1 h2
    (objs1_ne_nil ws g objs1 h3)
  rw [hp]
  exact self_mem_revSearch ws path

/-- Any workspace package with a direct import edge to the target is in
the imported set of the full load. -/
theorem importer_info_imported (ws : Workspace) (path : String)
    (prog g : Program) (objs1 : List (Ident × Object))
    (hwf : wfWorkspace ws = true)
    (h1 : loadProgram ws [path] = Except.ok prog)
    (h2 : findExportedObjects prog path = some objs1)
    (h3 : loadProgram ws (possiblePackagesOf ws objs1) = Except.ok g)
    (info : PackageInfo) (hinfo : info ∈ ws.pkgs)
    (hedge : (info.path, path) ∈ ws.imports) : info ∈ g.imported := by
  apply mem_imported_of_possible ws _ g h3 info hinfo
  apply revSearch_target_sub_possible ws path prog objs1 hwf h1 h2
    (objs1_ne_nil ws g objs1 h3)
  exact direct_mem_revSearch ws path info.path hedge

theorem filter_length_zero {α : Type} (p : α → Bool) :
    ∀ l : List α, (∀ a ∈ l, p a = false) → (l.filter p).length = 0 := by
  intro l
  induction l with
  | nil => intro _; rfl
  | cons a t ih =>
      intro h
      have ha : p a = false := h a (by simp)
      rw [List.filter_cons]
      rw [ha]
      simp only [Bool.false_eq_true, if_false]
      exact ih (fun z hz => h z (by simp [hz]))

theorem defTouched_true (q : List Object) (p : Ident × Option Object) :
    defTouched q p = true ↔ ∃ o, p.2 = some o ∧ memb o q = true := by
  cases hp : p.2 with
  | none => simp [defTouched, hp]
  | some o => simp [defTouched, hp]

/-- A workspace package outside the imported set of the full load
contributes no renamed site: planned objects live in the target package,
and every package defining or using a target object is imported. -/
theorem siteCount_zero_of_not_imported (ws : Workspace) (path : String)
    (prog g : Program) (objs1 objects : List (Ident × Object))
    (hwf : wfWorkspace ws = true)
    (h1 : loadProgram ws [path] = Except.ok prog)
    (h2 : findExportedObjects prog path = some objs1)
    (h3 : loadProgram ws (possiblePackagesOf ws objs1) = Except.ok g)
    (h4 : findExportedObjects g path = some objects)
    (x : PackageInfo) (hx : x ∈ ws.pkgs) (hnot : x ∉ g.imported) :
    siteCount (objsToUpdateOf g.imported objects) x = 0 := by
  have hplan : ∀ o ∈ objsToUpdateOf g.imported objects,
      o.exported = true ∧ o.pkg = path :=
    fun o ho => plan_exported_target ws path _ g objects hwf h3 h4 o ho
  unfold siteCount
  have hdefs : ∀ p ∈ x.defs, defTouched (objsToUpdateOf g.imported objects) p = false := by
    intro p hp
    by_contra hcon
    have htrue : defTouched (objsToUpdateOf g.imported objects) p = true := by
      cases hv : defTouched (objsToUpdateOf g.imported objects) p
      · exact absurd hv hcon
      · rfl
    obtain ⟨o, ho2, hoq⟩ := (defTouched_true _ p).1 htrue
    have hopkg := (hplan o ((memb_iff o _).1 hoq)).2
    have hxpath := wf_defs_pkg ws hwf x hx p hp o ho2
    have hpx : x.path = path := by rw [← hxpath, hopkg]
    exact hnot (target_info_imported ws path prog g objs1 hwf h1 h2 h3 x hx hpx)
  have huses : ∀ p ∈ x.uses, useTouched (objsToUpdateOf g.imported objects) p = false := by
    intro p hp
    by_contra hcon
    have htrue : useTouched (objsToUpdateOf g.imported objects) p = true := by
      cases hv : useTouched (objsToUpdateOf g.imported objects) p
      · exact absurd hv hcon
      · rfl
    have hoq : p.2 ∈ objsToUpdateOf g.imported objects := by
      unfold useTouched at htrue
      exact (memb_iff _ _).1 htrue
    have hopkg := (hplan p.2 hoq).2
    by_cases hcase : p.2.pkg = x.path
    · have hpx : x.path = path := by rw [← hcase, hopkg]
      exact hnot (target_info_imported ws path prog g objs1 hwf h1 h2 h3 x hx hpx)
    · have hedge := wf_uses_edge ws hwf x hx p hp hcase
      rw [hopkg] at hedge
      exact hnot (importer_info_imported ws path prog g objs1 hwf h1 h2 h3 x hx hedge)
  rw [filter_length_zero _ _ hdefs, filter_length_zero _ _ huses]

theorem renameUse_snd (q : List Object) (p : Ident × Object) :
    (renameUse q p).2 = p.2 := by
  unfold renameUse
  split <;> rfl

theorem renameDef_snd (q : List Object) (p : Ident × Option Object) :
    (renameDef q p).2 = p.2 := by
  unfold renameDef
  split
  · split <;> rfl
  · rfl

theorem map_pair_fst (wOk : String → Bool) :
    ∀ fs : List String,
      (fs.map (fun f => (f, rewriteFileOk wOk f))).map (fun e => e.1) = fs := by
  intro fs
  induction fs with
  | nil => rfl
  | cons a t ih => simp only [List.map_cons, ih]

theorem persistAll_map_fst (wOk : String → Bool) (ftu : List String) :
    ∀ (infos : List PackageInfo) (acc : List (String × Bool)),
      (infos.foldl
        (fun acc info =>
          acc ++ (info.files.filter (fun f => memb f ftu)).map
            (fun f => (f, rewriteFileOk wOk f)))
        acc).map (fun e => e.1) =
      infos.foldl (fun a info => a ++ info.files.filter (fun f => memb f ftu))
        (acc.map (fun e => e.1)) := by
  intro infos
  induction infos with
  | nil => intro acc; rfl
  | cons i t ih =>
      intro acc
      rw [List.foldl_cons, List.foldl_cons, ih, List.map_append, map_pair_fst]

/-! The claims. -/

/-- Claim C1: an exported symbol with a use site in another loaded package
must be excluded from the rename plan and never renamed.  The code
violates this: in workspace ws1 the object Foo, defined in package p, has
a use site in package b, yet the safe-set aggregation of runMain adds Foo
to the plan (package p itself has no use of Foo, and one use-free package
suffices), renames both occurrences including the one in b.go, and
reports two renamed occurrences. -/
theorem c1_external_use_still_renamed :
    hasExternalUse ws1.pkgs fooObj = true ∧
    memb fooObj (runMain ws1 wAllOk conf0).plan = true ∧
    (runMain ws1 wAllOk conf0).nidents = 2 ∧
    (runMain ws1 wAllOk conf0).finalImported =
      [{ pInfo1 with defs := [({ idDefFoo with name := "foo" }, some fooObj)] },
       { bInfo1 with uses := [({ idUseFooB with name := "foo" }, fooObj)] }] := by
  decide

/-- Claim C2: an exported symbol with zero use sites outside its defining
package must be included in the rename plan even when used inside its own
package.  The code violates this: in workspace ws2 the object Foo has
only one use site, inside its own package p, yet the plan comes out
empty because filterObjects discards any object used anywhere in the
package under inspection, including its own defining package. -/
theorem c2_internal_use_wrongly_excluded :
    hasExternalUse ws2.pkgs fooObj = false ∧
    (runMain ws2 wAllOk conf0).plan = [] ∧
    (runMain ws2 wAllOk conf0).nidents = 0 ∧
    (runMain ws2 wAllOk conf0).writes = [] := by
  decide

/-- Claim C3: a dry run must write no bytes while reporting the same
counts.  The code violates the no-write half: runMain never reads
conf.dryRun, so on workspace ws3 with the dryrun flag set the file p.go
is still written; the run is byte-for-byte identical to the non-dry run,
which also shows the identical-counts half. -/
theorem c3_dryrun_still_writes :
    confDry.dryRun = true ∧
    (runMain ws3 wAllOk confDry).writes = ["p.go"] ∧
    runMain ws3 wAllOk confDry = runMain ws3 wAllOk conf0 := by
  decide

/-- Claim C4: with a non-empty identifier allowlist no symbol outside the
allowlist may be renamed.  The code violates this: runMain never reads
conf.identifiers, so on workspace ws3 with allowlist containing only Bar
the object Foo, whose name is not in the allowlist, is still planned and
renamed. -/
theorem c4_allowlist_ignored :
    confAllow.identifiers = ["Bar"] ∧
    memb "Foo" confAllow.identifiers = false ∧
    memb fooObj (runMain ws3 wAllOk confAllow).plan = true ∧
    (runMain ws3 wAllOk confAllow).nidents = 1 := by
  decide

/-- Claim C5, counterexample: on workspace ws5, whose target package has
no exported identifiers, the run exits with code 1, not 0 as claimed. -/
theorem c5_counterexample :
    exitCode (runMain ws5 wAllOk conf0).outcome = 1 := by
  decide

/-- Claim C5, amended: when the target package has no exported
identifiers the affected-package set is empty, so the second load is
invoked with no packages and fails; the run aborts with exit code 1, the
plan is empty, and no file is attempted or written. -/
theorem c5_no_exports_aborts (ws : Workspace) (wOk : String → Bool)
    (conf : Config) (prog : Program)
    (h0 : conf.importPath ≠ "")
    (h1 : loadProgram ws [conf.importPath] = Except.ok prog)
    (h2 : findExportedObjects prog conf.importPath = some []) :
    (runMain ws wOk conf).outcome =
        Outcome.err "no initial packages were loaded" ∧
      (runMain ws wOk conf).plan = [] ∧
      (runMain ws wOk conf).writes = [] ∧
      (runMain ws wOk conf).attempted = [] ∧
      exitCode (runMain ws wOk conf).outcome = 1 := by
  have hr : runMain ws wOk conf =
      earlyResult (Outcome.err "no initial packages were loaded") := by
    unfold runMain analyzePhase
    simp only [if_neg h0, h1, h2, possiblePackagesOf_nil]
    rfl
  rw [hr]
  exact ⟨rfl, rfl, rfl, rfl, rfl⟩

/-- Claim C6: write failures are per-file, counted, and do not stop the
remaining attempts; every touched file is attempted, the error count is
exactly the number of failed attempts, the run exits 1 exactly when at
least one write failed, and the summary is printed regardless. -/
theorem c6_write_failure_aggregation (ws : Workspace) (wOk : String → Bool)
    (conf : Config) (prog g : Program)
    (objs1 objects : List (Ident × Object))
    (hwf : wfWorkspace ws = true)
    (h0 : conf.importPath ≠ "")
    (h1 : loadProgram ws [conf.importPath] = Except.ok prog)
    (h2 : findExportedObjects prog conf.importPath = some objs1)
    (h3 : loadProgram ws (possiblePackagesOf ws objs1) = Except.ok g)
    (h4 : findExportedObjects g conf.importPath = some objects) :
    (∀ f ∈ (runMain ws wOk conf).touched, f ∈ (runMain ws wOk conf).attempted) ∧
      (runMain ws wOk conf).nerrs =
        ((runMain ws wOk conf).attempted.filter (fun f => ! wOk f)).length ∧
      exitCode (runMain ws wOk conf).outcome =
        (if (runMain ws wOk conf).nerrs = 0 then 0 else 1) ∧
      (runMain ws wOk conf).summaryPrinted = true := by
  have hr := runMain_eq ws wOk conf prog g objs1 objects h0 h1 h2 h3 h4
  rw [hr]
  refine ⟨?_, ?_, ?_, rfl⟩
  · intro f hf
    rw [finishRun_touched] at hf
    rw [finishRun_attempted]
    obtain ⟨info, hinfo, hmem⟩ := (mem_touchedFiles _ g.imported f).1 hf
    have hws : info ∈ ws.pkgs := imported_sub_pkgs ws _ g h3 info hinfo
    have hffiles : f ∈ info.files := by
      unfold touchedFilesInfo at hmem
      rcases List.mem_append.1 hmem with hd | hu
      · obtain ⟨p, hp, rfl⟩ := List.mem_map.1 hd
        exact wf_defs_file ws hwf info hws p (List.mem_filter.1 hp).1
      · obtain ⟨p, hp, rfl⟩ := List.mem_map.1 hu
        exact wf_uses_file ws hwf info hws p (List.mem_filter.1 hp).1
    rw [List.mem_map]
    refine ⟨(f, rewriteFileOk wOk f), ?_, rfl⟩
    rw [mem_persistAll]
    exact ⟨info, hinfo, f, hffiles, (memb_iff f _).2 hf, rfl⟩
  · rw [finishRun_nerrs, finishRun_attempted]
    exact filter_snd_length wOk _ (fun e he => persistAll_snd wOk _ _ e he)
  · rw [finishRun_outcome]
    by_cases hz : (finishRun wOk g objects).nerrs = 0
    · simp [hz, exitCode]
    · have hpos : (finishRun wOk g objects).nerrs > 0 := Nat.pos_of_ne_zero hz
      simp [hz, hpos, exitCode]

/-- Claim C6, witness at workspace ws1 with a file system refusing the
write of b.go. -/
theorem c6_write_failure_aggregation_witness :
    (∀ f ∈ (runMain ws1 wFailB conf0).touched,
        f ∈ (runMain ws1 wFailB conf0).attempted) ∧
      (runMain ws1 wFailB conf0).nerrs =
        ((runMain ws1 wFailB conf0).attempted.filter (fun f => ! wFailB f)).length ∧
      exitCode (runMain ws1 wFailB conf0).outcome =
        (if (runMain ws1 wFailB conf0).nerrs = 0 then 0 else 1) ∧
      (runMain ws1 wFailB conf0).summaryPrinted = true :=
  c6_write_failure_aggregation ws1 wFailB conf0 prog1 glob1
    [(idDefFoo, fooObj)] [(idDefFoo, fooObj)]
    (by decide) (by decide) (by rfl) (by rfl) (by rfl) (by rfl)

/-- Claim C7: the reported renamed-occurrence count equals the number of
definition plus use sites over all loaded packages whose bound symbol is
in the rename plan, and no occurrence bound to a symbol outside the plan
has its text changed: the final program is the per-site rewrite of the
full-load program, and the rewrite fixes every untouched site. -/
theorem c7_occurrence_count (ws : Workspace) (wOk : String → Bool)
    (conf : Config) (prog g : Program)
    (objs1 objects : List (Ident × Object))
    (hwf : wfWorkspace ws = true)
    (h0 : conf.importPath ≠ "")
    (h1 : loadProgram ws [conf.importPath] = Except.ok prog)
    (h2 : findExportedObjects prog conf.importPath = some objs1)
    (h3 : loadProgram ws (possiblePackagesOf ws objs1) = Except.ok g)
    (h4 : findExportedObjects g conf.importPath = some objects) :
    (runMain ws wOk conf).nidents =
        totalSiteCount (runMain ws wOk conf).plan g.allPackages ∧
      (runMain ws wOk conf).finalImported =
        g.imported.map (renameInfo (runMain ws wOk conf).plan) ∧
      (∀ info ∈ g.imported, ∀ p ∈ info.uses,
        useTouched (runMain ws wOk conf).plan p = false →
          renameUse (runMain ws wOk conf).plan p = p) ∧
      (∀ info ∈ g.imported, ∀ p ∈ info.defs,
        defTouched (runMain ws wOk conf).plan p = false →
          renameDef (runMain ws wOk conf).plan p = p) := by
  have hr := runMain_eq ws wOk conf prog g objs1 objects h0 h1 h2 h3 h4
  obtain ⟨hne, himp, hall⟩ := loadProgram_ok ws _ g h3
  rw [hr, finishRun_nidents, finishRun_plan, finishRun_final]
  refine ⟨?_, rfl, ?_, ?_⟩
  · set q := objsToUpdateOf g.imported objects with hqdef
    have hzero : ∀ x ∈ ws.pkgs, x ∉ g.imported → siteCount q x = 0 := by
      intro x hx hn
      rw [hqdef]
      exact siteCount_zero_of_not_imported ws conf.importPath prog g objs1
        objects hwf h1 h2 h3 h4 x hx hn
    rw [himp, hall]
    unfold totalSiteCount
    apply Eq.symm
    apply sum_filter_congr (siteCount q) _ _ ws.pkgs
    · intro x _ hA
      rw [memb_iff] at hA ⊢
      exact roots_sub_fwdClosure ws _ x.path hA
    · intro x hx _ hA
      apply hzero x hx
      intro hmem
      rw [himp] at hmem
      have hA2 := (List.mem_filter.1 hmem).2
      rw [hA2] at hA
      exact Bool.noConfusion hA
  · intro info _ p _ hf
    unfold useTouched at hf
    simp [renameUse, hf]
  · intro info _ p _ hf
    cases hp2 : p.2 with
    | none => simp [renameDef, hp2]
    | some o =>
        simp only [defTouched, hp2] at hf
        simp [renameDef, hp2, hf]

/-- Claim C7, witness at workspace ws1. -/
theorem c7_occurrence_count_witness :
    (runMain ws1 wAllOk conf0).nidents =
        totalSiteCount (runMain ws1 wAllOk conf0).plan glob1.allPackages ∧
      (runMain ws1 wAllOk conf0).finalImported =
        glob1.imported.map (renameInfo (runMain ws1 wAllOk conf0).plan) ∧
      (∀ info ∈ glob1.imported, ∀ p ∈ info.uses,
        useTouched (runMain ws1 wAllOk conf0).plan p = false →
          renameUse (runMain ws1 wAllOk conf0).plan p = p) ∧
      (∀ info ∈ glob1.imported, ∀ p ∈ info.defs,
        defTouched (runMain ws1 wAllOk conf0).plan p = false →
          renameDef (runMain ws1 wAllOk conf0).plan p = p) :=
  c7_occurrence_count ws1 wAllOk conf0 prog1 glob1
    [(idDefFoo, fooObj)] [(idDefFoo, fooObj)]
    (by decide) (by decide) (by rfl) (by rfl) (by rfl) (by rfl)

/-- Claim C8: every renamed site receives exactly the full lowercase
transform of the original object name, uniformly at definition and use
sites; the rewrite is the deterministic per-site map renameInfo and
performs no collision check. -/
theorem c8_lowercase_rename (ws : Workspace) (wOk : String → Bool)
    (conf : Config) (prog g : Program)
    (objs1 objects : List (Ident × Object))
    (h0 : conf.importPath ≠ "")
    (h1 : loadProgram ws [conf.importPath] = Except.ok prog)
    (h2 : findExportedObjects prog conf.importPath = some objs1)
    (h3 : loadProgram ws (possiblePackagesOf ws objs1) = Except.ok g)
    (h4 : findExportedObjects g conf.importPath = some objects) :
    (runMain ws wOk conf).finalImported =
        g.imported.map (renameInfo (runMain ws wOk conf).plan) ∧
      ∀ info ∈ (runMain ws wOk conf).finalImported,
        (∀ p ∈ info.uses, memb p.2 (runMain ws wOk conf).plan = true →
          p.1.name = toLowerStr p.2.name) ∧
        (∀ p ∈ info.defs, ∀ o, p.2 = some o →
          memb o (runMain ws wOk conf).plan = true →
          p.1.name = toLowerStr o.name) := by
  have hr := runMain_eq ws wOk conf prog g objs1 objects h0 h1 h2 h3 h4
  rw [hr, finishRun_final, finishRun_plan]
  refine ⟨rfl, ?_⟩
  intro info hinfo
  obtain ⟨info0, _, rfl⟩ := List.mem_map.1 hinfo
  constructor
  · intro p hp hmem
    have huses : (renameInfo (objsToUpdateOf g.imported objects) info0).uses =
        info0.uses.map (renameUse (objsToUpdateOf g.imported objects)) := rfl
    rw [huses] at hp
    obtain ⟨p0, _, rfl⟩ := List.mem_map.1 hp
    rw [renameUse_snd] at hmem
    simp [renameUse, hmem]
  · intro p hp o ho hmem
    have hdefs : (renameInfo (objsToUpdateOf g.imported objects) info0).defs =
        info0.defs.map (renameDef (objsToUpdateOf g.imported objects)) := rfl
    rw [hdefs] at hp
    obtain ⟨p0, _, rfl⟩ := List.mem_map.1 hp
    rw [renameDef_snd] at ho
    simp [renameDef, ho, hmem]

/-- Claim C8, witness at workspace ws1. -/
theorem c8_lowercase_rename_witness :
    (runMain ws1 wAllOk conf0).finalImported =
        glob1.imported.map (renameInfo (runMain ws1 wAllOk conf0).plan) ∧
      ∀ info ∈ (runMain ws1 wAllOk conf0).finalImported,
        (∀ p ∈ info.uses, memb p.2 (runMain ws1 wAllOk conf0).plan = true →
          p.1.name = toLowerStr p.2.name) ∧
        (∀ p ∈ info.defs, ∀ o, p.2 = some o →
          memb o (runMain ws1 wAllOk conf0).plan = true →
          p.1.name = toLowerStr o.name) :=
  c8_lowercase_rename ws1 wAllOk conf0 prog1 glob1
    [(idDefFoo, fooObj)] [(idDefFoo, fooObj)]
    (by decide) (by rfl) (by rfl) (by rfl) (by rfl)

/-- Claim C9: the persistence loop attempts, and hence serializes and
writes, each on-disk file at most once per run: the attempted list and
the successful-write list are duplicate-free. -/
theorem c9_each_file_written_once (ws : Workspace) (wOk : String → Bool)
    (conf : Config) (prog g : Program)
    (objs1 objects : List (Ident × Object))
    (hwf : wfWorkspace ws = true)
    (h0 : conf.importPath ≠ "")
    (h1 : loadProgram ws [conf.importPath] = Except.ok prog)
    (h2 : findExportedObjects prog conf.importPath = some objs1)
    (h3 : loadProgram ws (possiblePackagesOf ws objs1) = Except.ok g)
    (h4 : findExportedObjects g conf.importPath = some objects) :
    (runMain ws wOk conf).attempted.Nodup ∧
      (runMain ws wOk conf).writes.Nodup := by
  have hr := runMain_eq ws wOk conf prog g objs1 objects h0 h1 h2 h3 h4
  obtain ⟨_, himp, _⟩ := loadProgram_ok ws _ g h3
  rw [hr, finishRun_attempted, finishRun_writes]
  set ftu := touchedFiles (objsToUpdateOf g.imported objects) g.imported
    with hftu
  have hatt : (persistAll wOk ftu g.imported).map (fun e => e.1) =
      g.imported.foldl
        (fun a info => a ++ info.files.filter (fun f => memb f ftu)) [] := by
    unfold persistAll
    exact persistAll_map_fst wOk ftu g.imported []
  have hnodup : ((persistAll wOk ftu g.imported).map (fun e => e.1)).Nodup := by
    rw [hatt]
    apply nodup_foldl_append
      (fun info => info.files.filter (fun f => memb f ftu)) g.imported []
    · exact List.nodup_nil
    · intro b hb
      exact (wf_files_nodup ws hwf b (imported_sub_pkgs ws _ g h3 b hb)).filter _
    · intro b _ x _
      exact List.not_mem_nil x
    · have hnd : ws.pkgs.Nodup := List.Nodup.of_map _ (wf_path_nodup ws hwf)
      have hpw : ws.pkgs.Pairwise
          (fun b c => ∀ x ∈ b.files.filter (fun f => memb f ftu),
            x ∉ c.files.filter (fun f => memb f ftu)) := by
        apply List.Pairwise.imp_of_mem ?_ hnd
        intro b c hbmem hcmem hbc x hxb hxc
        exact wf_files_disj ws hwf b hbmem c hcmem hbc x
          (List.mem_filter.1 hxb).1 (List.mem_filter.1 hxc).1
      rw [himp]
      exact List.Pairwise.sublist (List.filter_sublist ws.pkgs) hpw
  refine ⟨hnodup, ?_⟩
  have hsl : List.Sublist
      (((persistAll wOk ftu g.imported).filter (fun e => e.2)).map
        (fun e => e.1))
      ((persistAll wOk ftu g.imported).map (fun e => e.1)) :=
    List.Sublist.map _ (List.filter_sublist _)
  exact List.Nodup.sublist hsl hnodup

/-- Claim C9, witness at workspace ws1. -/
theorem c9_each_file_written_once_witness :
    (runMain ws1 wAllOk conf0).attempted.Nodup ∧
      (runMain ws1 wAllOk conf0).writes.Nodup :=
  c9_each_file_written_once ws1 wAllOk conf0 prog1 glob1
    [(idDefFoo, fooObj)] [(idDefFoo, fooObj)]
    (by decide) (by decide) (by rfl) (by rfl) (by rfl) (by rfl)

/-- Claim C10: every symbol in the rename set is exported and defined in
the target package; since runMain renames sites exactly at plan
membership, no unexported or foreign symbol is ever renamed. -/
theorem c10_plan_exported_and_target (ws : Workspace) (wOk : String → Bool)
    (conf : Config) (prog g : Program)
    (objs1 objects : List (Ident × Object))
    (hwf : wfWorkspace ws = true)
    (h0 : conf.importPath ≠ "")
    (h1 : loadProgram ws [conf.importPath] = Except.ok prog)
    (h2 : findExportedObjects prog conf.importPath = some objs1)
    (h3 : loadProgram ws (possiblePackagesOf ws objs1) = Except.ok g)
    (h4 : findExportedObjects g conf.importPath = some objects) :
    ∀ o ∈ (runMain ws wOk conf).plan,
      o.exported = true ∧ o.pkg = conf.importPath := by
  have hr := runMain_eq ws wOk conf prog g objs1 objects h0 h1 h2 h3 h4
  rw [hr, finishRun_plan]
  intro o ho
  exact plan_exported_target ws conf.importPath _ g objects hwf h3 h4 o ho

/-- Claim C10, witness at workspace ws1 and the planned object Foo. -/
theorem c10_plan_exported_and_target_witness :
    fooObj ∈ (runMain ws1 wAllOk conf0).plan ∧
      fooObj.exported = true ∧ fooObj.pkg = conf0.importPath :=
  ⟨by decide,
    c10_plan_exported_and_target ws1 wAllOk conf0 prog1 glob1
      [(idDefFoo, fooObj)] [(idDefFoo, fooObj)]
      (by decide) (by decide) (by rfl) (by rfl) (by rfl) (by rfl)
      fooObj (by decide)⟩

/-- Claim C5, witness for the amended theorem at workspace ws5. -/
theorem c5_no_exports_aborts_witness :
    (runMain ws5 wAllOk conf0).outcome =
        Outcome.err "no initial packages were loaded" ∧
      (runMain ws5 wAllOk conf0).plan = [] ∧
      (runMain ws5 wAllOk conf0).writes = [] ∧
      (runMain ws5 wAllOk conf0).attempted = [] ∧
      exitCode (runMain ws5 wAllOk conf0).outcome = 1 :=
  c5_no_exports_aborts ws5 wAllOk conf0 prog5 (by decide) (by rfl) (by rfl)

end Unexport
